import Mathlib

/-!
Shallow embedding of the conversational job-search assistant
(`app/intent_handler.py`, `app/memory.py`, `app/followup.py`,
`app/intent_parser.py`, `app/job_response_final.py`, `app/job_retriever.py`,
`app/response_chain.py`, `app/job_ranker.py`) together with proofs of the
spec claims about it.

Python dictionaries holding intents are embedded as association lists
`List (String × Option String)` (insertion-ordered, exactly like CPython
dicts); the value `none` embeds Python `None`.  The two external
black-box services (text completion, vector index) are embedded as
explicit inputs: a completion call outcome is an `Except Unit _` value
(`Except.error` embeds a raised exception caught by the surrounding
`try`/`except`), and the vector index is a function argument.
-/

namespace JobAssistant

/-- Truthiness of a Python value of type `str | None`: `None` and the
empty string are falsy, every other string is truthy. -/
def pyTruthy : Option String → Bool
  | none => false
  | some s => !(s == "")

/-- Helper for Python substring containment: `t` is a leading block of `s`. -/
def charsLead : List Char → List Char → Bool
  | [], _ => true
  | _ :: _, [] => false
  | a :: t1, b :: t2 => a == b && charsLead t1 t2

/-- Helper: `t` occurs contiguously inside `s` (Python `t in s` on lists of
characters). -/
def charsHasSub (t s : List Char) : Bool :=
  match s with
  | [] => charsLead t []
  | _ :: rest => charsLead t s || charsHasSub t rest

/-- Python `t in s` for strings: contiguous substring containment
(the empty string is contained in every string). -/
def pyIn (t s : String) : Bool :=
  charsHasSub t.data s.data

/-- Python `str.strip()` with no argument: remove leading and trailing
whitespace (embedded via `Char.isWhitespace`, which covers the ASCII
whitespace Python strips). -/
def pyStrip (s : String) : String :=
  String.mk
    (((s.data.dropWhile Char.isWhitespace).reverse.dropWhile
        Char.isWhitespace).reverse)

/-- Python `str.lower()` (embedded per character via `Char.toLower`). -/
def pyLower (s : String) : String :=
  String.mk (s.data.map Char.toLower)

/-- Python `d[k]`-style lookup on the association-list embedding of a dict:
`some v` when key `k` is present bound to `v`, `none` when absent. -/
def lookupIntent : List (String × Option String) → String →
    Option (Option String)
  | [], _ => none
  | (k0, v0) :: rest, k => if k0 == k then some v0 else lookupIntent rest k

/-- Python `d[k] = v` on the association-list embedding of a dict: replaces
the binding in place when the key is present (CPython keeps the key's
position), appends at the end otherwise. -/
def setKey : List (String × Option String) → String → Option String →
    List (String × Option String)
  | [], k, v => [(k, v)]
  | (k0, v0) :: rest, k, v =>
    if k0 == k then (k, v) :: rest else (k0, v0) :: setKey rest k v

/-- The five intent fields, in the insertion order used by
`app/intent_parser.py` and `app/memory.py`. -/
def fiveKeys : List String := ["role", "location", "salary", "domain", "remote"]

/-- The all-`None` intent: the dict literal built by `app/memory.py`
`get_session` and by the `except` branch of
`app/intent_parser.py` `parse_intent`. -/
def emptyIntentPairs : List (String × Option String) :=
  [("role", none), ("location", none), ("salary", none),
   ("domain", none), ("remote", none)]

/-- Embedding of `app/intent_parser.py` `parse_intent`.  The completion
call plus JSON parsing (`chain.invoke`) is the input `r`: `Except.error`
embeds any exception raised inside the `try` block (service failure, or an
answer that does not parse into the expected shape), in which case the
all-`None` intent is returned; on success the Python code rebuilds a dict
with exactly the five keys via `result.get(...)` (`none` when the parsed
answer lacks a key). -/
def parse_intent (r : Except Unit (String → Option String)) :
    List (String × Option String) :=
  match r with
  | Except.ok g =>
    [("role", g "role"), ("location", g "location"), ("salary", g "salary"),
     ("domain", g "domain"), ("remote", g "remote")]
  | Except.error _ => emptyIntentPairs

/-- Embedding of the merge loop in `app/intent_handler.py`
`handle_user_query`: `for k, v in new_intent.items(): if v:
session["intent"][k] = v`.  A field of the new intent overwrites the old
value exactly when it is truthy. -/
def mergeIntent (old new : List (String × Option String)) :
    List (String × Option String) :=
  new.foldl (fun acc kv => if pyTruthy kv.2 then setKey acc kv.1 kv.2 else acc) old

/-- `REQUIRED_FIELDS` from `app/followup.py` (a Python set; only
membership is used). -/
def REQUIRED_FIELDS : List String := ["role", "location", "salary"]

/-- Embedding of `app/followup.py` `is_critical_missing`: some field bound
to `None` lies in `REQUIRED_FIELDS`. -/
def is_critical_missing (intent : List (String × Option String)) : Bool :=
  intent.any (fun kv => kv.2.isNone && REQUIRED_FIELDS.contains kv.1)

/-- Embedding of `app/followup.py` `get_missing_fields`: keys bound to
`None`, in dict order. -/
def get_missing_fields (intent : List (String × Option String)) : List String :=
  (intent.filter (fun kv => kv.2.isNone)).map (fun kv => kv.1)

/-- Embedding of `app/followup.py` `get_followup_question`.  The
completion call is the input `rf`; on success Python returns
`result.content.strip()`, on any exception it returns `None`, and when no
field is missing the service is not consulted at all. -/
def get_followup_question (rf : Except Unit String)
    (intent : List (String × Option String)) : Option String :=
  if get_missing_fields intent = [] then none
  else
    match rf with
    | Except.ok s => some (pyStrip s)
    | Except.error _ => none

/-- `MAX_ATTEMPTS` from `app/intent_handler.py`. -/
def MAX_ATTEMPTS : Nat := 3

/-- The fixed message returned by `app/intent_handler.py` when the attempt
ceiling is reached. -/
def failMessage : String :=
  "I'm sorry, your request is still unclear after 3 tries. Please rephrase or try again."

/-- The fixed optional-refinement message of the `intent_complete` branch. -/
def refineMessage : String :=
  "I have found some matches, but I can refine them further with more information."

/-- Embedding of one per-user session from `app/memory.py`: intent dict,
attempt counter and chat history (a history entry's message may be Python
`None`, since `handle_user_query` appends a follow-up that can be `None`). -/
structure Session where
  intent : List (String × Option String)
  attempts : Nat
  chat_history : List (String × Option String)
  deriving Repr, DecidableEq

/-- The session freshly created by `app/memory.py` `get_session` on first
reference to a user id. -/
def freshSession : Session :=
  { intent := emptyIntentPairs, attempts := 0, chat_history := [] }

/-- The result dict returned by `app/intent_handler.py`
`handle_user_query`, one constructor per `return` site, keyed by the
`"type"` value. -/
inductive HResult where
  | errorRes (message : String) (intent : List (String × Option String))
  | followupRes (followup : Option String)
      (intent : List (String × Option String))
  | completeRes (intent : List (String × Option String))
      (followup : Option String) (message : Option String)
      (chat_history : List (String × Option String))
  deriving Repr, DecidableEq

/-- The `"type"` field of a `handle_user_query` result. -/
def HResult.rtype : HResult → String
  | HResult.errorRes _ _ => "error"
  | HResult.followupRes _ _ => "followup_required"
  | HResult.completeRes _ _ _ _ => "intent_complete"

/-- The `"message"` field of a `handle_user_query` result (`none` when the
result dict has no such key or it is `None`). -/
def HResult.rmessage : HResult → Option String
  | HResult.errorRes m _ => some m
  | HResult.followupRes _ _ => none
  | HResult.completeRes _ _ m _ => m

/-- The `"intent"` field of a `handle_user_query` result. -/
def HResult.rintent : HResult → List (String × Option String)
  | HResult.errorRes _ i => i
  | HResult.followupRes _ i => i
  | HResult.completeRes i _ _ _ => i

/-- Embedding of `app/intent_handler.py` `handle_user_query` for one user:
takes the user text, the two completion-service outcomes of this turn
(intent extraction `rp`, follow-up generation `rf`) and the user's current
session; returns the result dict and the mutated session.  Mirrors the
source line by line: append user message, parse, merge, then either
increment attempts and fail/ask, or return the complete intent. -/
def handle_user_query (userInput : String)
    (rp : Except Unit (String → Option String)) (rf : Except Unit String)
    (s : Session) : HResult × Session :=
  let s1 : Session :=
    { s with chat_history := s.chat_history ++ [("user", some userInput)] }
  let newIntent := parse_intent rp
  let merged := mergeIntent s1.intent newIntent
  let s2 : Session := { s1 with intent := merged }
  if is_critical_missing merged then
    let s3 : Session := { s2 with attempts := s2.attempts + 1 }
    if MAX_ATTEMPTS ≤ s3.attempts then
      (HResult.errorRes failMessage merged, s3)
    else
      let fq := get_followup_question rf merged
      let s4 : Session :=
        { s3 with chat_history := s3.chat_history ++ [("assistant", fq)] }
      (HResult.followupRes fq merged, s4)
  else
    let fq := get_followup_question rf merged
    let msg : Option String := if pyTruthy fq then some refineMessage else none
    (HResult.completeRes merged fq msg s2.chat_history, s2)

/-- One conversation turn as seen by the orchestrator: the user's text and
the outcomes of the two completion calls that the turn may make. -/
structure TurnInput where
  text : String
  rp : Except Unit (String → Option String)
  rf : Except Unit String

/-- The list of results of calling `handle_user_query` once per turn,
threading the session through. -/
def runResults : Session → List TurnInput → List HResult
  | _, [] => []
  | s, t :: ts =>
    let pr := handle_user_query t.text t.rp t.rf s
    pr.1 :: runResults pr.2 ts

/-- The session after calling `handle_user_query` once per turn. -/
def sessAfter : Session → List TurnInput → Session
  | s, [] => s
  | s, t :: ts => sessAfter (handle_user_query t.text t.rp t.rf s).2 ts

/-- The intent obtained by folding the merge over the turns' extraction
outcomes, starting from `i0`. -/
def mergedFrom (i0 : List (String × Option String)) (ts : List TurnInput) :
    List (String × Option String) :=
  ts.foldl (fun acc t => mergeIntent acc (parse_intent t.rp)) i0

/-- The session intent after the given turns, starting from a fresh session. -/
def intentAfter (ts : List TurnInput) : List (String × Option String) :=
  mergedFrom emptyIntentPairs ts

/-- Default result used with `List.getD` when indexing result lists (the
theorems only index in range). -/
def dfltR : HResult := HResult.errorRes "" []

/-- Default turn input used with `List.getD` (only used in range). -/
def dfltT : TurnInput :=
  { text := "", rp := Except.error (), rf := Except.error () }

/-! Embedding of `app/job_response_final.py` `JobRetriever.retrieve_jobs`
(the canonical retriever of spec section 4.5).  The vector index is a
black-box argument `simsearch`; a similarity score is an opaque value of a
type parameter `α` (the source additionally rounds the float score to four
digits for display, a float-level operation that the dedup logic never
inspects). -/

/-- A `(document, score)` hit as returned by the vector index: free-text
body plus the three metadata entries the retriever reads via
`doc.metadata.get(...)` (absent entry embeds to `none`). -/
structure RetrievedDoc where
  title : Option String
  company : Option String
  location : Option String
  page_content : String
  deriving Repr, DecidableEq

/-- The dedup identity key `(title, company, location)` of a hit. -/
def docKey (d : RetrievedDoc) :
    Option String × Option String × Option String :=
  (d.title, d.company, d.location)

/-- Python `s[:500]` (slice by code point). -/
def pySlice500 (s : String) : String := String.mk (s.data.take 500)

/-- One deduplicated candidate dict appended by the retriever loop. -/
structure DedupJob (α : Type) where
  title : Option String
  company : Option String
  location : Option String
  short_description : String
  similarity_score : α
  deriving Repr, DecidableEq

/-- The candidate dict built from a hit inside the dedup loop. -/
def mkDedupJob {α : Type} (d : RetrievedDoc) (score : α) : DedupJob α :=
  { title := d.title, company := d.company, location := d.location,
    short_description := pySlice500 d.page_content,
    similarity_score := score }

/-- The dedup identity key of a built candidate. -/
def jobKey {α : Type} (j : DedupJob α) :
    Option String × Option String × Option String :=
  (j.title, j.company, j.location)

/-- Embedding of the retriever's dedup loop (`for doc, score in results`):
skip a hit whose key was seen, otherwise append it and stop as soon as
`top_k` candidates are collected (`seen` embeds the Python set, `deduped`
the accumulator). -/
def dedupLoop {α : Type} :
    List (RetrievedDoc × α) → Nat →
    List (Option String × Option String × Option String) →
    List (DedupJob α) → List (DedupJob α)
  | [], _, _, deduped => deduped
  | (d, score) :: rest, top_k, seen, deduped =>
    if docKey d ∈ seen then dedupLoop rest top_k seen deduped
    else
      let deduped2 := deduped ++ [mkDedupJob d score]
      if top_k ≤ deduped2.length then deduped2
      else dedupLoop rest top_k (docKey d :: seen) deduped2

/-- Python rendering of a `str | None` value inside an f-string. -/
def pyShowOpt : Option String → String
  | some s => s
  | none => "None"

/-- Embedding of `app/job_response_final.py` `create_search_query`:
concatenate the role field and the raw query
(`f"{role} - {raw_query}".strip()`, with `.get(key, "")` lookups). -/
def create_search_query (intent : List (String × Option String)) : String :=
  let role := match lookupIntent intent "role" with
    | some v => pyShowOpt v
    | none => ""
  let raw_query := match lookupIntent intent "raw_query" with
    | some v => pyShowOpt v
    | none => ""
  pyStrip (role ++ " - " ++ raw_query)

/-- Embedding of the retrieval stage of `app/job_response_final.py`
`JobRetriever.retrieve_jobs` (lines 42-65): query the index for
`top_k * 2` raw hits and run the dedup loop.  Its value is the `deduped`
list that the Python function then hands to `rerank_with_llm`. -/
def retrieve_jobs_deduped {α : Type}
    (simsearch : String → Nat → List (RetrievedDoc × α))
    (intent : List (String × Option String)) (top_k : Nat) :
    List (DedupJob α) :=
  dedupLoop (simsearch (create_search_query intent) (top_k * 2)) top_k [] []

/-- Modelled from the spec wording of section 4.5: deduplicate a hit list
by identity key, keeping the first-seen occurrence of each key (used as
the reference point the loop above is proved equal to). -/
def dedupFirstAux {α : Type}
    (seen : List (Option String × Option String × Option String)) :
    List (RetrievedDoc × α) → List (RetrievedDoc × α)
  | [] => []
  | (d, score) :: rest =>
    if docKey d ∈ seen then dedupFirstAux seen rest
    else (d, score) :: dedupFirstAux (docKey d :: seen) rest

/-! Embedding of `app/job_retriever.py` `JobRetriever.filter_by_location`.
The retriever's formatted job dicts always carry the keys read here; a
value can still be Python `None` (it comes from `doc.metadata.get`), in
which case `job.get("location", "").lower()` raises `AttributeError`,
embedded as `Except.error`. -/

/-- A formatted job dict as built by `app/job_retriever.py`
`retrieve_jobs` (the `metadata` passthrough entry is omitted; nothing in
the filter reads it). -/
structure RJob (α : Type) where
  rank : Nat
  job_id : Option String
  title : Option String
  company : Option String
  location : Option String
  description : String
  similarity_score : α
  deriving Repr, DecidableEq

/-- The comprehension body of `filter_by_location`: walk the list in
order; a job whose present location contains the target or the marker
`"remote"` (after lowercasing) is kept; a job whose location is `None`
raises. -/
def filterLocGo {α : Type} (target : String) :
    List (RJob α) → Except Unit (List (RJob α))
  | [] => Except.ok []
  | j :: rest =>
    match j.location with
    | none => Except.error ()
    | some loc =>
      match filterLocGo target rest with
      | Except.error e => Except.error e
      | Except.ok r =>
        Except.ok
          (if pyIn target (pyLower loc) || pyIn "remote" (pyLower loc)
           then j :: r else r)

/-- Embedding of `filter_by_location`: a falsy target (`None` or the
empty string) is a pass-through, otherwise keep jobs by lowercased
substring match against the lowercased target. -/
def filter_by_location {α : Type} (jobs : List (RJob α))
    (target_location : Option String) : Except Unit (List (RJob α)) :=
  if pyTruthy target_location then
    filterLocGo (pyLower (target_location.getD "")) jobs
  else Except.ok jobs

/-! Embedding of the two rerankers.  A parsed JSON value (the result of
`json.loads`) is a `PyJson`; `json.loads` itself is an abstract total
parser argument `jparse : String → Option PyJson` (`none` embeds a
`JSONDecodeError`), so every theorem below holds for arbitrary parser
behaviour.  JSON numbers are embedded as integers; no claim inspects
numeric values. -/

/-- A Python value decoded from JSON text. -/
inductive PyJson where
  | null
  | jbool (b : Bool)
  | jnum (n : Int)
  | jstr (s : String)
  | jarr (elems : List PyJson)
  | jobj (fields : List (String × PyJson))
  deriving Repr

/-- `d.get(k)` on a decoded JSON object. -/
def pyObjGet (fields : List (String × PyJson)) (k : String) : Option PyJson :=
  (fields.find? (fun kv => kv.1 == k)).map (fun kv => kv.2)

/-- A retrieved candidate dict as consumed by the rerankers: the four
entries the rerank logic reads (`.get` of the other entries never
influences control flow or the returned structure). -/
structure Job (α : Type) where
  title : Option String
  company : Option String
  location : Option String
  similarity_score : α
  deriving Repr, DecidableEq

namespace ResponseChain

/-- An element of the list returned by `app/response_chain.py`
`SimpleReranker.rerank_jobs`: either a copy of an original candidate with
`final_rank` and `selection_reason` added, or the placeholder dict built
when no original candidate matches (the source also stores a literal
`0.0` similarity score in the placeholder; no claim reads it). -/
inductive RItem (α : Type) where
  | matched (job : Job α) (final_rank : Nat) (selection_reason : PyJson)
  | placeholder (final_rank : Nat) (job_id : String) (title company : String)
      (location : PyJson) (selection_reason : PyJson)
  deriving Repr

/-- Python `ranked_job.get(k, dflt).strip()`: absent key falls back to the
(string) default, a non-string value raises `AttributeError` on
`.strip()`. -/
def jsonGetStripped (fields : List (String × PyJson)) (k : String)
    (dflt : String) : Except Unit String :=
  match pyObjGet fields k with
  | none => Except.ok (pyStrip dflt)
  | some (PyJson.jstr s) => Except.ok (pyStrip s)
  | some _ => Except.error ()

/-- Python `original_job.get(k, '').strip()` on a candidate dict whose key
is present: a `None` value raises on `.strip()`. -/
def stripField : Option String → Except Unit String
  | some s => Except.ok (pyStrip s)
  | none => Except.error ()

/-- The fuzzy case-insensitive two-way substring test on title and
company used to match a ranked entry to an original candidate. -/
def titleCompanyMatch (rt rc ot oc : String) : Bool :=
  (pyIn (pyLower rt) (pyLower ot) || pyIn (pyLower ot) (pyLower rt)) &&
    (pyIn (pyLower rc) (pyLower oc) || pyIn (pyLower oc) (pyLower rc))

/-- The inner `for original_job in jobs` search loop: first match wins;
reading a `None` title or company of a visited candidate raises. -/
def findMatch {α : Type} (rt rc : String) :
    List (Job α) → Except Unit (Option (Job α))
  | [] => Except.ok none
  | j :: rest =>
    match stripField j.title with
    | Except.error e => Except.error e
    | Except.ok ot =>
      match stripField j.company with
      | Except.error e => Except.error e
      | Except.ok oc =>
        if titleCompanyMatch rt rc ot oc then Except.ok (some j)
        else findMatch rt rc rest

/-- The `for i, ranked_job in enumerate(rankings[:10], 1)` loop: non-dict
entries are skipped (the index still advances), a matched entry copies the
candidate, an unmatched one synthesizes a placeholder. -/
def buildRanked {α : Type} (jobs : List (Job α)) :
    List PyJson → Nat → Except Unit (List (RItem α))
  | [], _ => Except.ok []
  | e :: rest, i =>
    match e with
    | PyJson.jobj fields =>
      match jsonGetStripped fields "title" "" with
      | Except.error er => Except.error er
      | Except.ok rt =>
        match jsonGetStripped fields "company" "" with
        | Except.error er => Except.error er
        | Except.ok rc =>
          let reason := (pyObjGet fields "reason").getD
            (PyJson.jstr "Good match for your requirements")
          match findMatch rt rc jobs with
          | Except.error er => Except.error er
          | Except.ok (some j) =>
            match buildRanked jobs rest (i + 1) with
            | Except.error er => Except.error er
            | Except.ok items =>
              Except.ok (RItem.matched j i reason :: items)
          | Except.ok none =>
            match buildRanked jobs rest (i + 1) with
            | Except.error er => Except.error er
            | Except.ok items =>
              Except.ok
                (RItem.placeholder i ("ranked_" ++ toString i) rt rc
                  ((pyObjGet fields "location").getD (PyJson.jstr "Unknown"))
                  reason :: items)
    | _ => buildRanked jobs rest (i + 1)

/-- The `_create_fallback_ranking` loop body
(`for i, job in enumerate(jobs[:10], 1)`). -/
def fallbackGo {α : Type} (showScore : α → String) :
    List (Job α) → Nat → List (RItem α)
  | [], _ => []
  | j :: rest, i =>
    RItem.matched j i
        (PyJson.jstr
          ("High similarity match (score: " ++ showScore j.similarity_score
            ++ ")"))
      :: fallbackGo showScore rest (i + 1)

/-- Embedding of `SimpleReranker._create_fallback_ranking`: the first ten
candidates in incoming order, ranked sequentially from 1, with a reason
quoting the candidate's similarity score (`showScore` embeds the f-string
rendering of the score). -/
def create_fallback_ranking {α : Type} (showScore : α → String)
    (jobs : List (Job α)) : List (RItem α) :=
  fallbackGo showScore (jobs.take 10) 1

/-- Python `s.find(c)` (`none` embeds `-1`). -/
def pyFindIdx (c : Char) (s : String) : Option Nat :=
  s.data.findIdx? (fun x => x == c)

/-- Python `s.rfind(c)` (`none` embeds `-1`). -/
def pyRFindIdx (c : Char) (s : String) : Option Nat :=
  match s.data.reverse.findIdx? (fun x => x == c) with
  | none => none
  | some r => some (s.data.length - 1 - r)

/-- Python `s.replace(pat, rep)` on character lists, fuelled by the input
length (all patterns used by the source are nonempty; an empty pattern is
the identity here). -/
def replaceGo (pat rep : List Char) : Nat → List Char → List Char
  | _, [] => []
  | 0, s => s
  | fuel + 1, c :: rest =>
    if charsLead pat (c :: rest) && !pat.isEmpty then
      rep ++ replaceGo pat rep fuel ((c :: rest).drop pat.length)
    else c :: replaceGo pat rep fuel rest

/-- Python `s.replace(pat, rep)`: replace all non-overlapping occurrences
left to right. -/
def pyReplace (s pat rep : String) : String :=
  String.mk (replaceGo pat.data rep.data s.data.length s.data)

/-- The `try` block of `SimpleReranker.rerank_jobs`, given the completion
outcome `svc`: strip, fall back on empty text, remove code fences, locate
the bracketed array, normalize whitespace, parse, validate it is a list,
then build at most ten ranked items.  `Except.error` embeds an exception
reaching the surrounding `except` handlers. -/
def rerankTry {α : Type} (jparse : String → Option PyJson)
    (showScore : α → String) (jobs : List (Job α))
    (svc : Except Unit String) : Except Unit (List (RItem α)) :=
  match svc with
  | Except.error e => Except.error e
  | Except.ok content0 =>
    let content := pyStrip content0
    if content == "" then Except.ok (create_fallback_ranking showScore jobs)
    else
      let content2 := pyReplace (pyReplace content "```json" "") "```" ""
      match pyFindIdx '[' content2, pyRFindIdx ']' content2 with
      | some start_idx, some rstop =>
        let json_str :=
          String.mk ((content2.data.drop start_idx).take (rstop + 1 - start_idx))
        let json_str2 := pyReplace (pyReplace json_str "\n" " ") "\t" " "
        match jparse json_str2 with
        | none => Except.ok (create_fallback_ranking showScore jobs)
        | some (PyJson.jarr rankings) =>
          match buildRanked jobs (rankings.take 10) 1 with
          | Except.error e => Except.error e
          | Except.ok items => Except.ok (items.take 10)
        | some _ => Except.ok (create_fallback_ranking showScore jobs)
      | _, _ => Except.ok (create_fallback_ranking showScore jobs)

/-- Embedding of `app/response_chain.py` `SimpleReranker.rerank_jobs`:
truncate to thirty candidates, run the `try` block, and on any escaped
exception return the fallback ranking (the prompt assembly only feeds the
black-box completion call, whose outcome is the input `svc`; the `intent`
argument is kept for the interface but shapes only the prompt). -/
def rerank_jobs {α : Type} (jparse : String → Option PyJson)
    (showScore : α → String) (jobs : List (Job α))
    (intent : List (String × Option String)) (svc : Except Unit String) :
    List (RItem α) :=
  let jobs2 := if 30 < jobs.length then jobs.take 30 else jobs
  match rerankTry jparse showScore jobs2 svc with
  | Except.ok items => items
  | Except.error _ => create_fallback_ranking showScore jobs2

end ResponseChain

namespace JobRanker

/-- An element of the list returned by `app/job_ranker.py`
`SimpleReranker.rerank_jobs`: a candidate copy with the model-declared
rank and reason added, or (on the fallback path `return jobs[:10]`) an
unmodified candidate. -/
inductive RItem2 (α : Type) where
  | ranked (job : Job α) (final_rank : PyJson) (selection_reason : PyJson)
  | plain (job : Job α)
  deriving Repr

/-- Python `for x in v` over a decoded JSON value: lists yield elements,
strings yield characters, dicts yield keys, everything else raises
`TypeError`. -/
def pyIterate : PyJson → Except Unit (List PyJson)
  | PyJson.jarr l => Except.ok l
  | PyJson.jstr s => Except.ok (s.data.map (fun c => PyJson.jstr (String.mk [c])))
  | PyJson.jobj fields => Except.ok (fields.map (fun kv => PyJson.jstr kv.1))
  | _ => Except.error ()

/-- Python `v[k]` for a string key on a decoded JSON value: `KeyError` on
a dict missing the key, `TypeError` on anything that is not a dict. -/
def pySubscript : PyJson → String → Except Unit PyJson
  | PyJson.jobj fields, k =>
    match pyObjGet fields k with
    | some v => Except.ok v
    | none => Except.error ()
  | _, _ => Except.error ()

/-- Python `rank_info["job_number"] - 1`: an int (or bool, since Python
bools are ints) subtracts, anything else raises `TypeError`. -/
def jobNumberIdx : PyJson → Except Unit Int
  | PyJson.jnum n => Except.ok (n - 1)
  | PyJson.jbool b => Except.ok ((if b then (1 : Int) else 0) - 1)
  | _ => Except.error ()

/-- The `for rank_info in rankings` loop of `app/job_ranker.py`: subscript
`job_number`, bounds-check the index, and append the indexed candidate
with the declared `rank` and `reason`; an out-of-bounds index skips the
entry. -/
def rankLoop {α : Type} (jobs : List (Job α)) :
    List PyJson → Except Unit (List (RItem2 α))
  | [] => Except.ok []
  | e :: rest =>
    match pySubscript e "job_number" with
    | Except.error er => Except.error er
    | Except.ok v =>
      match jobNumberIdx v with
      | Except.error er => Except.error er
      | Except.ok idx =>
        if 0 ≤ idx ∧ idx < (jobs.length : Int) then
          match jobs[idx.toNat]? with
          | none => Except.error ()
          | some j =>
            match pySubscript e "rank" with
            | Except.error er => Except.error er
            | Except.ok rk =>
              match pySubscript e "reason" with
              | Except.error er => Except.error er
              | Except.ok rs =>
                match rankLoop jobs rest with
                | Except.error er => Except.error er
                | Except.ok items => Except.ok (RItem2.ranked j rk rs :: items)
        else rankLoop jobs rest

/-- The `try` block of `app/job_ranker.py` `SimpleReranker.rerank_jobs`:
parse the completion answer (no stripping, no fence removal), iterate it,
run the ranking loop, truncate to ten. -/
def rerankTry1 {α : Type} (jparse : String → Option PyJson)
    (jobs : List (Job α)) (svc : Except Unit String) :
    Except Unit (List (RItem2 α)) :=
  match svc with
  | Except.error e => Except.error e
  | Except.ok content =>
    match jparse content with
    | none => Except.error ()
    | some rankings =>
      match pyIterate rankings with
      | Except.error e => Except.error e
      | Except.ok entries =>
        match rankLoop jobs entries with
        | Except.error e => Except.error e
        | Except.ok items => Except.ok (items.take 10)

/-- Embedding of `app/job_ranker.py` `SimpleReranker.rerank_jobs`:
truncate to thirty candidates, run the `try` block, and on any exception
fall back to the first ten candidates by similarity order. -/
def rerank_jobs {α : Type} (jparse : String → Option PyJson)
    (jobs : List (Job α)) (intent : List (String × Option String))
    (svc : Except Unit String) : List (RItem2 α) :=
  let jobs2 := if 30 < jobs.length then jobs.take 30 else jobs
  match rerankTry1 jparse jobs2 svc with
  | Except.ok items => items
  | Except.error _ => (jobs2.take 10).map RItem2.plain

end JobRanker

/-! Concrete inputs used by witnesses and counterexamples below. -/

/-- An extraction outcome supplying the three required fields. -/
def witGFull : String → Option String := fun k =>
  if k == "role" then some "data analyst"
  else if k == "location" then some "new york"
  else if k == "salary" then some "100k"
  else none

/-- An extraction outcome whose role field is the empty string. -/
def witGEmptyStr : String → Option String := fun k =>
  if k == "role" then some "" else none

/-- A turn whose extraction and follow-up calls both raise. -/
def witTurnMiss : TurnInput :=
  { text := "hello", rp := Except.error (), rf := Except.error () }

/-- A turn whose extraction supplies all required fields. -/
def witTurnFull : TurnInput :=
  { text := "role, location and salary", rp := Except.ok witGFull,
    rf := Except.error () }

/-- Three uninformative turns followed by a fully informative one. -/
def witTurns4 : List TurnInput :=
  [witTurnMiss, witTurnMiss, witTurnMiss, witTurnFull]

/-- A session intent with a known role and the other fields unknown. -/
def witOldIntent : List (String × Option String) :=
  [("role", some "dev"), ("location", none), ("salary", none),
   ("domain", none), ("remote", none)]

/-- A concrete retrieved document (software engineer at Acme, NY). -/
def witDocA : RetrievedDoc :=
  { title := some "SWE", company := some "Acme", location := some "NY",
    page_content := "desc a" }

/-- A duplicate of `witDocA` under the identity key, other body. -/
def witDocB : RetrievedDoc :=
  { title := some "SWE", company := some "Acme", location := some "NY",
    page_content := "desc b" }

/-- A concrete retrieved document with a distinct identity key. -/
def witDocC : RetrievedDoc :=
  { title := some "DS", company := some "Beta", location := some "SF",
    page_content := "desc c" }

/-- A concrete hit list containing one duplicated identity key. -/
def witRaw : List (RetrievedDoc × Int) := [(witDocA, 1), (witDocB, 2), (witDocC, 3)]

/-- A concrete vector index: returns the first `n` hits of `witRaw`. -/
def witSim : String → Nat → List (RetrievedDoc × Int) :=
  fun _ n => witRaw.take n

/-- A concrete job dict located in New York. -/
def witJobNY : RJob Int :=
  { rank := 1, job_id := some "1", title := some "SWE",
    company := some "Acme", location := some "New York, NY",
    description := "d1", similarity_score := 1 }

/-- A concrete remote job dict. -/
def witJobRemote : RJob Int :=
  { rank := 2, job_id := some "2", title := some "DS",
    company := some "Beta", location := some "Remote",
    description := "d2", similarity_score := 2 }

/-- A concrete job dict located in Los Angeles. -/
def witJobLA : RJob Int :=
  { rank := 3, job_id := some "3", title := some "PM",
    company := some "Gamma", location := some "Los Angeles, CA",
    description := "d3", similarity_score := 3 }

/-- A concrete job dict whose location value is Python `None`. -/
def witJobNoneLoc : RJob Int :=
  { rank := 4, job_id := some "4", title := some "QA",
    company := some "Delta", location := none,
    description := "d4", similarity_score := 4 }

/-- Three concrete jobs with string locations. -/
def witJobs3 : List (RJob Int) := [witJobNY, witJobRemote, witJobLA]

end JobAssistant

namespace JobAssistant

/-! Lemmas about the dict embedding and the merge. -/

lemma lookup_setKey_self (i : List (String × Option String)) (k : String)
    (v : Option String) : lookupIntent (setKey i k v) k = some v := by
  induction i with
  | nil => simp [setKey, lookupIntent]
  | cons kv rest ih =>
    obtain ⟨k0, v0⟩ := kv
    by_cases h : k0 == k
    · simp [setKey, h, lookupIntent]
    · simp [setKey, h, lookupIntent, ih]

lemma lookup_setKey_ne (i : List (String × Option String)) (k0 k : String)
    (v : Option String) (h : ¬ k0 = k) :
    lookupIntent (setKey i k0 v) k = lookupIntent i k := by
  induction i with
  | nil => simp [setKey, lookupIntent, h]
  | cons kv rest ih =>
    obtain ⟨k1, v1⟩ := kv
    by_cases h1 : k1 == k0
    · have : k1 = k0 := by simpa using h1
      simp [setKey, h1, lookupIntent, this, h]
    · simp [setKey, h1, lookupIntent, ih]

lemma mem_setKey (k : String) (v : Option String)
    (x : String × Option String) :
    ∀ i, x ∈ setKey i k v → x = (k, v) ∨ x ∈ i := by
  intro i
  induction i with
  | nil =>
    intro hx
    exact Or.inl (by simpa [setKey] using hx)
  | cons kv rest ih =>
    obtain ⟨k1, v1⟩ := kv
    intro hx
    by_cases h1 : (k1 == k) = true
    · rw [setKey, if_pos h1] at hx
      rcases List.mem_cons.1 hx with hx | hx
      · exact Or.inl hx
      · exact Or.inr (List.mem_cons_of_mem _ hx)
    · rw [setKey, if_neg h1] at hx
      rcases List.mem_cons.1 hx with hx | hx
      · exact Or.inr (by simp [hx])
      · rcases ih hx with hx2 | hx2
        · exact Or.inl hx2
        · exact Or.inr (List.mem_cons_of_mem _ hx2)

lemma lookup_eq_none_of_not_mem (i : List (String × Option String))
    (k : String) (h : k ∉ i.map Prod.fst) : lookupIntent i k = none := by
  induction i with
  | nil => rfl
  | cons kv rest ih =>
    obtain ⟨k1, v1⟩ := kv
    simp only [List.map_cons, List.mem_cons] at h
    push_neg at h
    have hne : ¬ (k1 == k) = true := by
      simp only [beq_iff_eq]
      exact fun he => h.1 he.symm
    simp [lookupIntent, hne, ih h.2]

lemma mergeIntent_cons (old : List (String × Option String))
    (kv : String × Option String) (rest : List (String × Option String)) :
    mergeIntent old (kv :: rest) =
      mergeIntent (if pyTruthy kv.2 then setKey old kv.1 kv.2 else old) rest :=
  rfl

lemma mem_merge_of_none (new : List (String × Option String)) :
    ∀ old x, x ∈ mergeIntent old new → x.2 = none → x ∈ old := by
  induction new with
  | nil => intro old x hx _; simpa [mergeIntent] using hx
  | cons kv rest ih =>
    intro old x hx hnone
    rw [mergeIntent_cons] at hx
    have hx2 := ih _ x hx hnone
    by_cases ht : pyTruthy kv.2
    · rw [if_pos ht] at hx2
      rcases mem_setKey _ _ _ _ hx2 with he | hm
      · exfalso
        obtain ⟨k1, v1⟩ := kv
        cases v1 with
        | none => simp [pyTruthy] at ht
        | some s =>
          have : x.2 = some s := by rw [he]
          rw [hnone] at this
          exact Option.noConfusion this
      · exact hm
    · rwa [if_neg ht] at hx2

lemma missing_merge (old new : List (String × Option String))
    (h : is_critical_missing (mergeIntent old new) = true) :
    is_critical_missing old = true := by
  unfold is_critical_missing at h ⊢
  rw [List.any_eq_true] at h
  obtain ⟨x, hx, hp⟩ := h
  rw [List.any_eq_true]
  rw [Bool.and_eq_true, Option.isNone_iff_eq_none] at hp
  refine ⟨x, mem_merge_of_none new old x hx hp.1, ?_⟩
  rw [Bool.and_eq_true, Option.isNone_iff_eq_none]
  exact hp

lemma missing_mergedFrom (ts : List TurnInput) :
    ∀ i0, is_critical_missing (mergedFrom i0 ts) = true →
      is_critical_missing i0 = true := by
  induction ts with
  | nil => intro i0 h; simpa [mergedFrom] using h
  | cons t rest ih =>
    intro i0 h
    have : is_critical_missing (mergeIntent i0 (parse_intent t.rp)) = true :=
      ih _ h
    exact missing_merge _ _ this

lemma mergedFrom_append (i0 : List (String × Option String))
    (l1 l2 : List TurnInput) :
    mergedFrom i0 (l1 ++ l2) = mergedFrom (mergedFrom i0 l1) l2 := by
  simp [mergedFrom, List.foldl_append]

lemma missing_take_mono (i0 : List (String × Option String))
    (ts : List TurnInput) (j k : Nat) (hjk : j ≤ k)
    (h : is_critical_missing (mergedFrom i0 (ts.take k)) = true) :
    is_critical_missing (mergedFrom i0 (ts.take j)) = true := by
  have h1 : (ts.take k).take j = ts.take j := by
    rw [List.take_take, Nat.min_eq_left hjk]
  have h2 : mergedFrom i0 (ts.take k) =
      mergedFrom (mergedFrom i0 (ts.take j)) ((ts.take k).drop j) := by
    conv_lhs => rw [← List.take_append_drop j (ts.take k)]
    rw [mergedFrom_append, h1]
  rw [h2] at h
  exact missing_mergedFrom _ _ h

lemma lookup_merge (new : List (String × Option String)) :
    ∀ old k, (new.map Prod.fst).Nodup →
    lookupIntent (mergeIntent old new) k =
      (match lookupIntent new k with
       | some v => if pyTruthy v then some v else lookupIntent old k
       | none => lookupIntent old k) := by
  induction new with
  | nil => intro old k _; rfl
  | cons kv rest ih =>
    intro old k hnd
    obtain ⟨k0, v0⟩ := kv
    simp only [List.map_cons, List.nodup_cons] at hnd
    rw [mergeIntent_cons]
    by_cases hk : (k0 == k) = true
    · have hk0 : k0 = k := by simpa using hk
      have hrest : lookupIntent rest k = none := by
        apply lookup_eq_none_of_not_mem
        rw [← hk0]; exact hnd.1
      have hcons : lookupIntent ((k0, v0) :: rest) k = some v0 := by
        simp [lookupIntent, hk]
      rw [ih _ k hnd.2, hrest, hcons]
      show lookupIntent (if pyTruthy v0 = true then setKey old k0 v0 else old) k =
        if pyTruthy v0 = true then some v0 else lookupIntent old k
      by_cases ht : pyTruthy v0 = true
      · rw [if_pos ht, if_pos ht, hk0]
        exact lookup_setKey_self _ _ _
      · rw [if_neg ht, if_neg ht]
    · have hk0 : ¬ k0 = k := by simpa using hk
      have hcons : lookupIntent ((k0, v0) :: rest) k = lookupIntent rest k := by
        simp [lookupIntent, hk]
      rw [ih _ k hnd.2, hcons]
      have hold : lookupIntent
          (if pyTruthy v0 = true then setKey old k0 v0 else old) k =
          lookupIntent old k := by
        by_cases ht : pyTruthy v0 = true
        · rw [if_pos ht]; exact lookup_setKey_ne _ _ _ _ hk0
        · rw [if_neg ht]
      rw [hold]

lemma parse_keys (r : Except Unit (String → Option String)) :
    (parse_intent r).map Prod.fst = fiveKeys := by
  cases r <;> rfl

lemma fiveKeys_nodup : fiveKeys.Nodup := by decide

lemma parse_keys_nodup (r : Except Unit (String → Option String)) :
    ((parse_intent r).map Prod.fst).Nodup := by
  rw [parse_keys]; exact fiveKeys_nodup

lemma keys_setKey (i : List (String × Option String)) (k : String)
    (v : Option String) (h : k ∈ i.map Prod.fst) :
    (setKey i k v).map Prod.fst = i.map Prod.fst := by
  induction i with
  | nil => simp at h
  | cons kv rest ih =>
    obtain ⟨k1, v1⟩ := kv
    by_cases h1 : k1 == k
    · have : k1 = k := by simpa using h1
      simp [setKey, h1, this]
    · have hne : ¬ k1 = k := by simpa using h1
      simp only [List.map_cons, List.mem_cons] at h
      rcases h with h | h
      · exact absurd h.symm hne
      · simp [setKey, h1, ih h]

lemma keys_merge (new : List (String × Option String)) :
    ∀ old, (∀ x ∈ new, x.1 ∈ old.map Prod.fst) →
      (mergeIntent old new).map Prod.fst = old.map Prod.fst := by
  induction new with
  | nil => intro old _; simp [mergeIntent]
  | cons kv rest ih =>
    intro old hsub
    rw [mergeIntent_cons]
    by_cases ht : pyTruthy kv.2
    · rw [if_pos ht]
      have hkeys : (setKey old kv.1 kv.2).map Prod.fst = old.map Prod.fst :=
        keys_setKey _ _ _ (hsub kv (List.mem_cons_self _ _))
      rw [ih (setKey old kv.1 kv.2) ?_, hkeys]
      intro x hx
      rw [hkeys]
      exact hsub x (List.mem_cons_of_mem _ hx)
    · rw [if_neg ht]
      exact ih old (fun x hx => hsub x (List.mem_cons_of_mem _ hx))

end JobAssistant

namespace JobAssistant

/-! Lemmas characterising one `handle_user_query` step and whole runs. -/

lemma handle_fst_eq (u : String) (rp : Except Unit (String → Option String))
    (rf : Except Unit String) (s : Session) :
    (handle_user_query u rp rf s).1 =
      (if is_critical_missing (mergeIntent s.intent (parse_intent rp)) then
        if MAX_ATTEMPTS ≤ s.attempts + 1 then
          HResult.errorRes failMessage (mergeIntent s.intent (parse_intent rp))
        else
          HResult.followupRes
            (get_followup_question rf (mergeIntent s.intent (parse_intent rp)))
            (mergeIntent s.intent (parse_intent rp))
      else
        HResult.completeRes (mergeIntent s.intent (parse_intent rp))
          (get_followup_question rf (mergeIntent s.intent (parse_intent rp)))
          (if pyTruthy
              (get_followup_question rf (mergeIntent s.intent (parse_intent rp)))
           then some refineMessage else none)
          (s.chat_history ++ [("user", some u)])) := by
  unfold handle_user_query
  dsimp only
  split_ifs <;> rfl

lemma handle_snd_intent (u : String) (rp : Except Unit (String → Option String))
    (rf : Except Unit String) (s : Session) :
    ((handle_user_query u rp rf s).2).intent =
      mergeIntent s.intent (parse_intent rp) := by
  unfold handle_user_query
  dsimp only
  split_ifs <;> rfl

lemma handle_snd_attempts (u : String)
    (rp : Except Unit (String → Option String)) (rf : Except Unit String)
    (s : Session) :
    ((handle_user_query u rp rf s).2).attempts =
      (if is_critical_missing (mergeIntent s.intent (parse_intent rp))
       then s.attempts + 1 else s.attempts) := by
  unfold handle_user_query
  dsimp only
  split_ifs <;> rfl

lemma runResults_getD_eq (ts : List TurnInput) :
    ∀ s k, k < ts.length →
      (runResults s ts).getD k dfltR =
        (handle_user_query (ts.getD k dfltT).text (ts.getD k dfltT).rp
          (ts.getD k dfltT).rf (sessAfter s (ts.take k))).1 := by
  induction ts with
  | nil => intro s k h; simp at h
  | cons t rest ih =>
    intro s k hk
    cases k with
    | zero => rfl
    | succ k2 =>
      have hk2 : k2 < rest.length := by simpa using hk
      have := ih (handle_user_query t.text t.rp t.rf s).2 k2 hk2
      simpa [runResults, sessAfter, List.getD] using this

lemma sessAfter_intent (ts : List TurnInput) :
    ∀ s, (sessAfter s ts).intent = mergedFrom s.intent ts := by
  induction ts with
  | nil => intro s; rfl
  | cons t rest ih =>
    intro s
    have h1 := ih (handle_user_query t.text t.rp t.rf s).2
    rw [sessAfter, h1, handle_snd_intent]
    rfl

lemma sessAfter_attempts_all_missing (ts : List TurnInput) :
    ∀ s, is_critical_missing (mergedFrom s.intent ts) = true →
      (sessAfter s ts).attempts = s.attempts + ts.length := by
  induction ts with
  | nil => intro s _; rfl
  | cons t rest ih =>
    intro s hmiss
    have hstep : is_critical_missing
        (mergeIntent s.intent (parse_intent t.rp)) = true := by
      have : mergedFrom s.intent (t :: rest) =
          mergedFrom (mergeIntent s.intent (parse_intent t.rp)) rest := rfl
      rw [this] at hmiss
      exact missing_mergedFrom _ _ hmiss
    have hrec : is_critical_missing
        (mergedFrom ((handle_user_query t.text t.rp t.rf s).2).intent rest)
          = true := by
      rw [handle_snd_intent]
      exact hmiss
    rw [sessAfter, ih _ hrec, handle_snd_attempts, if_pos hstep,
      List.length_cons]
    omega

lemma take_succ_getD (ts : List TurnInput) (k : Nat) (hk : k < ts.length) :
    ts.take (k + 1) = ts.take k ++ [ts.getD k dfltT] := by
  rw [List.take_succ]
  congr 1
  rw [List.getElem?_eq_getElem hk]
  simp [List.getD, List.getElem?_eq_getElem hk]

lemma rtype_error (m : String) (i : List (String × Option String)) :
    (HResult.errorRes m i).rtype = "error" := rfl

lemma rtype_followup (f : Option String)
    (i : List (String × Option String)) :
    (HResult.followupRes f i).rtype = "followup_required" := rfl

lemma rtype_complete (i : List (String × Option String)) (f : Option String)
    (m : Option String) (c : List (String × Option String)) :
    (HResult.completeRes i f m c).rtype = "intent_complete" := rfl

lemma run_characterization (ts : List TurnInput) (k : Nat)
    (hk : k < ts.length) :
    (((runResults freshSession ts).getD k dfltR).rtype = "error"
        ↔ (is_critical_missing (intentAfter (ts.take (k + 1))) = true
            ∧ 3 ≤ k + 1))
  ∧ (((runResults freshSession ts).getD k dfltR).rtype = "intent_complete"
        ↔ is_critical_missing (intentAfter (ts.take (k + 1))) = false)
  ∧ (((runResults freshSession ts).getD k dfltR).rtype = "followup_required"
        ↔ (is_critical_missing (intentAfter (ts.take (k + 1))) = true
            ∧ k + 1 < 3))
  ∧ (((runResults freshSession ts).getD k dfltR).rtype = "error"
        → ((runResults freshSession ts).getD k dfltR).rmessage
            = some failMessage) := by
  have hint : (sessAfter freshSession (ts.take k)).intent =
      mergedFrom emptyIntentPairs (ts.take k) :=
    sessAfter_intent (ts.take k) freshSession
  have hM : mergeIntent (sessAfter freshSession (ts.take k)).intent
      (parse_intent (ts.getD k dfltT).rp) = intentAfter (ts.take (k + 1)) := by
    rw [hint]
    unfold intentAfter
    rw [take_succ_getD ts k hk, mergedFrom_append]
    rfl
  rw [runResults_getD_eq ts freshSession k hk, handle_fst_eq, hM]
  by_cases hmiss : is_critical_missing (intentAfter (ts.take (k + 1))) = true
  · have hmissk : is_critical_missing
        (mergedFrom emptyIntentPairs (ts.take k)) = true := by
      apply missing_take_mono emptyIntentPairs ts k (k + 1) (by omega)
      exact hmiss
    have hatt : (sessAfter freshSession (ts.take k)).attempts = k := by
      have := sessAfter_attempts_all_missing (ts.take k) freshSession
        (by rw [show freshSession.intent = emptyIntentPairs from rfl]
            exact hmissk)
      rw [this]
      simp [freshSession, List.length_take, Nat.min_eq_left (Nat.le_of_lt hk)]
    rw [if_pos hmiss, hatt]
    by_cases h3 : MAX_ATTEMPTS ≤ k + 1
    · have h3n : 3 ≤ k + 1 := h3
      rw [if_pos h3]
      refine ⟨?_, ?_, ?_, ?_⟩
      · rw [rtype_error]
        simp [hmiss, h3n]
      · rw [rtype_error]
        constructor
        · intro h; exact absurd h (by decide)
        · intro h; rw [hmiss] at h; exact absurd h (by decide)
      · rw [rtype_error]
        constructor
        · intro h; exact absurd h (by decide)
        · intro h; omega
      · intro _; rfl
    · have h3n : k + 1 < 3 := by
        unfold MAX_ATTEMPTS at h3; omega
      rw [if_neg h3]
      refine ⟨?_, ?_, ?_, ?_⟩
      · rw [rtype_followup]
        constructor
        · intro h; exact absurd h (by decide)
        · intro h; omega
      · rw [rtype_followup]
        constructor
        · intro h; exact absurd h (by decide)
        · intro h; rw [hmiss] at h; exact absurd h (by decide)
      · rw [rtype_followup]
        simp [hmiss, h3n]
      · rw [rtype_followup]
        intro h; exact absurd h (by decide)
  · have hmf : is_critical_missing (intentAfter (ts.take (k + 1))) = false :=
      Bool.eq_false_iff.2 (by simpa using hmiss)
    rw [if_neg hmiss]
    refine ⟨?_, ?_, ?_, ?_⟩
    · rw [rtype_complete]
      constructor
      · intro h; exact absurd h (by decide)
      · intro h; rw [hmf] at h; exact absurd h.1 (by decide)
    · rw [rtype_complete]
      simp [hmf]
    · rw [rtype_complete]
      constructor
      · intro h; exact absurd h (by decide)
      · intro h; rw [hmf] at h; exact absurd h.1 (by decide)
    · rw [rtype_complete]
      intro h; exact absurd h (by decide)

end JobAssistant

namespace JobAssistant

/-! Claim theorems about the intent state machine. -/

/-- C1: starting from a fresh session, the `k`-th `handle_user_query`
result (0-indexed) has type `"error"` exactly when a required field is
still unknown after the `k + 1` merges so far and at least 3 turns have
happened (with the monotone merge this first happens at exactly the third
turn), and its message is the fixed text containing `"3 tries"`; it has
type `"intent_complete"` exactly when no required field is missing,
optional fields notwithstanding (`is_critical_missing` only inspects
`role`, `location`, `salary`). -/
theorem orchestrator_failed_iff_after_three_turns (ts : List TurnInput)
    (k : Nat) (hk : k < ts.length) :
    (((runResults freshSession ts).getD k dfltR).rtype = "error"
        ↔ (is_critical_missing (intentAfter (ts.take (k + 1))) = true
            ∧ 3 ≤ k + 1))
  ∧ (((runResults freshSession ts).getD k dfltR).rtype = "intent_complete"
        ↔ is_critical_missing (intentAfter (ts.take (k + 1))) = false)
  ∧ (((runResults freshSession ts).getD k dfltR).rtype = "error"
        → ((runResults freshSession ts).getD k dfltR).rmessage
            = some failMessage)
  ∧ pyIn "3 tries" failMessage = true := by
  obtain ⟨h1, h2, _, h4⟩ := run_characterization ts k hk
  exact ⟨h1, h2, h4, by decide⟩

/-- Witness for C1 at the concrete run `witTurns4`, third turn. -/
theorem orchestrator_failed_iff_after_three_turns_witness :
    (2 < witTurns4.length)
  ∧ ((((runResults freshSession witTurns4).getD 2 dfltR).rtype = "error"
        ↔ (is_critical_missing (intentAfter (witTurns4.take (2 + 1))) = true
            ∧ 3 ≤ 2 + 1))
     ∧ (((runResults freshSession witTurns4).getD 2 dfltR).rtype
          = "intent_complete"
        ↔ is_critical_missing (intentAfter (witTurns4.take (2 + 1))) = false)
     ∧ (((runResults freshSession witTurns4).getD 2 dfltR).rtype = "error"
        → ((runResults freshSession witTurns4).getD 2 dfltR).rmessage
            = some failMessage)
     ∧ pyIn "3 tries" failMessage = true) :=
  ⟨by decide,
   orchestrator_failed_iff_after_three_turns witTurns4 2 (by decide)⟩

/-- C2: the merge is monotone.  A field that the newly extracted intent
maps to `None` keeps its old value, and a field known in the session is
never regressed to unknown by a later turn. -/
theorem merge_monotone_never_regresses (old : List (String × Option String))
    (r : Except Unit (String → Option String)) (f : String) :
    (lookupIntent (parse_intent r) f = some none →
      lookupIntent (mergeIntent old (parse_intent r)) f = lookupIntent old f)
  ∧ (∀ s0 : String, lookupIntent old f = some (some s0) →
      ∃ s1 : String,
        lookupIntent (mergeIntent old (parse_intent r)) f
          = some (some s1)) := by
  have hL := lookup_merge (parse_intent r) old f (parse_keys_nodup r)
  constructor
  · intro hnone
    rw [hL, hnone]
    exact rfl
  · intro s0 hs0
    cases hv : lookupIntent (parse_intent r) f with
    | none =>
      refine ⟨s0, ?_⟩
      rw [hL, hv]
      exact hs0
    | some v =>
      cases v with
      | none =>
        refine ⟨s0, ?_⟩
        rw [hL, hv]
        exact hs0
      | some s2 =>
        by_cases hs : s2 = ""
        · refine ⟨s0, ?_⟩
          rw [hL, hv, hs]
          exact hs0
        · have ht : pyTruthy (some s2) = true := by
            simp [pyTruthy, hs]
          refine ⟨s2, ?_⟩
          rw [hL, hv]
          show (if pyTruthy (some s2) = true then some (some s2)
            else lookupIntent old f) = some (some s2)
          rw [if_pos ht]

/-- Witness for C2: an extraction failure leaves the known `role` and the
unknown `domain` of the session untouched. -/
theorem merge_monotone_never_regresses_witness :
    (lookupIntent (parse_intent (Except.error ())) "domain" = some none)
  ∧ (lookupIntent (mergeIntent witOldIntent (parse_intent (Except.error ())))
      "domain" = lookupIntent witOldIntent "domain") :=
  ⟨by decide,
   (merge_monotone_never_regresses witOldIntent (Except.error ()) "domain").1
     (by decide)⟩

/-- C3: `parse_intent` always returns a mapping with exactly the five
keys `role`, `location`, `salary`, `domain`, `remote` (it is a total Lean
function, so it never propagates an exception), and on any failure of the
completion call or of parsing its answer it returns the all-`None`
intent. -/
theorem parse_intent_total_fields (r : Except Unit (String → Option String)) :
    ((parse_intent r).map Prod.fst = fiveKeys)
  ∧ (∀ e : Unit, r = Except.error e → parse_intent r = emptyIntentPairs)
  ∧ (∀ p ∈ emptyIntentPairs, p.2 = none) := by
  refine ⟨parse_keys r, ?_, by decide⟩
  intro e he
  rw [he]
  rfl

/-- Witness for C3 at a failing completion call. -/
theorem parse_intent_total_fields_witness :
    ((Except.error () : Except Unit (String → Option String))
        = Except.error ())
  ∧ parse_intent (Except.error ()) = emptyIntentPairs :=
  ⟨rfl, (parse_intent_total_fields (Except.error ())).2.1 () rfl⟩

/-- C4 counterexample: `"error"` is not terminal.  In the concrete run
`witTurns4` the third turn returns type `"error"`, yet the fourth turn
(which finally supplies the required fields, with no intervening reset)
returns type `"intent_complete"` — not the same terminal kind again. -/
theorem terminal_states_counterexample :
    (((runResults freshSession witTurns4).getD 2 dfltR).rtype = "error")
  ∧ (((runResults freshSession witTurns4).getD 3 dfltR).rtype
      = "intent_complete") :=
  ⟨rfl, rfl⟩

/-- C4 amended: `"intent_complete"` is terminal (every later turn returns
`"intent_complete"` again); after an `"error"` result the orchestrator
never asks another follow-up: each later call returns `"error"` while a
required field is still missing, and `"intent_complete"` once all
required fields become known. -/
theorem terminal_states_amended (ts : List TurnInput) (k k2 : Nat)
    (hk2 : k2 < ts.length) (hkk : k ≤ k2) :
    (((runResults freshSession ts).getD k dfltR).rtype = "intent_complete"
        → ((runResults freshSession ts).getD k2 dfltR).rtype
            = "intent_complete")
  ∧ (((runResults freshSession ts).getD k dfltR).rtype = "error"
        → (((runResults freshSession ts).getD k2 dfltR).rtype
              ≠ "followup_required"
           ∧ (((runResults freshSession ts).getD k2 dfltR).rtype = "error"
              ↔ is_critical_missing (intentAfter (ts.take (k2 + 1))) = true)
           ∧ (((runResults freshSession ts).getD k2 dfltR).rtype
                = "intent_complete"
              ↔ is_critical_missing (intentAfter (ts.take (k2 + 1)))
                  = false))) := by
  have hk : k < ts.length := Nat.lt_of_le_of_lt hkk hk2
  obtain ⟨e1, c1, f1, _⟩ := run_characterization ts k hk
  obtain ⟨e2, c2, f2, _⟩ := run_characterization ts k2 hk2
  constructor
  · intro h
    have hmf : is_critical_missing (intentAfter (ts.take (k + 1))) = false :=
      c1.1 h
    apply c2.2
    cases hmiss2 : is_critical_missing (intentAfter (ts.take (k2 + 1))) with
    | false => rfl
    | true =>
      exfalso
      have hmono := missing_take_mono emptyIntentPairs ts (k + 1) (k2 + 1)
        (by omega) hmiss2
      have hmono2 : is_critical_missing (intentAfter (ts.take (k + 1)))
          = true := hmono
      rw [hmf] at hmono2
      exact absurd hmono2 (by decide)
  · intro h
    obtain ⟨hmiss, h3⟩ := e1.1 h
    have h32 : 3 ≤ k2 + 1 := by omega
    refine ⟨?_, ?_, c2⟩
    · intro hfu
      have := (f2.1 hfu).2
      omega
    · constructor
      · intro he
        exact (e2.1 he).1
      · intro hm
        exact e2.2 ⟨hm, h32⟩

/-- Witness for the amended C4 on the concrete run `witTurns4`. -/
theorem terminal_states_amended_witness :
    (3 < witTurns4.length)
  ∧ (2 ≤ 3)
  ∧ ((((runResults freshSession witTurns4).getD 2 dfltR).rtype
          = "intent_complete"
        → ((runResults freshSession witTurns4).getD 3 dfltR).rtype
            = "intent_complete")
     ∧ (((runResults freshSession witTurns4).getD 2 dfltR).rtype = "error"
        → (((runResults freshSession witTurns4).getD 3 dfltR).rtype
              ≠ "followup_required"
           ∧ (((runResults freshSession witTurns4).getD 3 dfltR).rtype
                = "error"
              ↔ is_critical_missing (intentAfter (witTurns4.take (3 + 1)))
                  = true)
           ∧ (((runResults freshSession witTurns4).getD 3 dfltR).rtype
                = "intent_complete"
              ↔ is_critical_missing (intentAfter (witTurns4.take (3 + 1)))
                  = false)))) :=
  ⟨by decide, by decide,
   terminal_states_amended witTurns4 2 3 (by decide) (by decide)⟩

/-- C5: invariant of every orchestrator run from a fresh session — the
session intent always carries exactly the five keys (in dict order), and
the fresh session maps all five to `None` with zero attempts and an empty
chat history. -/
theorem session_five_keys_invariant (ts : List TurnInput) (k : Nat) :
    ((sessAfter freshSession (ts.take k)).intent).map Prod.fst = fiveKeys
  ∧ freshSession.intent = emptyIntentPairs
  ∧ freshSession.attempts = 0
  ∧ freshSession.chat_history = []
  ∧ (∀ p ∈ emptyIntentPairs, p.2 = none) := by
  refine ⟨?_, rfl, rfl, rfl, by decide⟩
  have main : ∀ l : List TurnInput, ∀ s : Session,
      s.intent.map Prod.fst = fiveKeys →
      ((sessAfter s l).intent).map Prod.fst = fiveKeys := by
    intro l
    induction l with
    | nil => intro s hs; exact hs
    | cons t rest ih =>
      intro s hs
      rw [sessAfter]
      apply ih
      rw [handle_snd_intent]
      have hsub : ∀ x ∈ parse_intent t.rp, x.1 ∈ s.intent.map Prod.fst := by
        intro x hx
        rw [hs]
        have hmem : x.1 ∈ (parse_intent t.rp).map Prod.fst :=
          List.mem_map_of_mem _ hx
        rwa [parse_keys] at hmem
      rw [keys_merge (parse_intent t.rp) s.intent hsub]
      exact hs
  exact main (ts.take k) freshSession rfl

/-- Witness for C5 on a concrete prefix of the `witTurns4` run. -/
theorem session_five_keys_invariant_witness :
    (("role", (none : Option String)) ∈ emptyIntentPairs)
  ∧ ((sessAfter freshSession (witTurns4.take 2)).intent).map Prod.fst
      = fiveKeys
  ∧ ("role", (none : Option String)).2 = none :=
  ⟨by decide, (session_five_keys_invariant witTurns4 2).1,
   (session_five_keys_invariant witTurns4 2).2.2.2.2 _ (by decide)⟩

/-- C10 (implicit): the merge overwrites a session field exactly when the
newly extracted value is truthy — in particular a freshly extracted empty
string never overwrites an existing value and never replaces `None`, so
"present" at merge time means non-empty, not merely non-`None`. -/
theorem merge_overwrite_iff_truthy (old : List (String × Option String))
    (r : Except Unit (String → Option String)) (f : String) :
    (lookupIntent (mergeIntent old (parse_intent r)) f =
      (match lookupIntent (parse_intent r) f with
       | some v => if pyTruthy v then some v else lookupIntent old f
       | none => lookupIntent old f))
  ∧ (lookupIntent (parse_intent r) f = some (some "") →
      lookupIntent (mergeIntent old (parse_intent r)) f
        = lookupIntent old f) := by
  have hL := lookup_merge (parse_intent r) old f (parse_keys_nodup r)
  refine ⟨hL, ?_⟩
  intro hempt
  rw [hL, hempt]
  exact rfl

/-- Witness for C10: an extracted empty-string role does not overwrite
the session's known role. -/
theorem merge_overwrite_iff_truthy_witness :
    (lookupIntent (parse_intent (Except.ok witGEmptyStr)) "role"
        = some (some ""))
  ∧ (lookupIntent (mergeIntent witOldIntent
        (parse_intent (Except.ok witGEmptyStr))) "role"
      = lookupIntent witOldIntent "role") :=
  ⟨by decide,
   (merge_overwrite_iff_truthy witOldIntent (Except.ok witGEmptyStr)
     "role").2 (by decide)⟩

end JobAssistant

namespace JobAssistant

/-! Lemmas about the retriever's dedup loop. -/

lemma dedupLoop_eq {α : Type} (results : List (RetrievedDoc × α)) :
    ∀ (top_k : Nat) seen (acc : List (DedupJob α)), acc.length < top_k →
      dedupLoop results top_k seen acc =
        acc ++ ((dedupFirstAux seen results).map
          (fun p => mkDedupJob p.1 p.2)).take (top_k - acc.length) := by
  induction results with
  | nil => intro top_k seen acc _; simp [dedupLoop, dedupFirstAux]
  | cons p rest ih =>
    intro top_k seen acc hacc
    obtain ⟨d, sc⟩ := p
    by_cases hseen : docKey d ∈ seen
    · rw [dedupLoop, dedupFirstAux]
      rw [if_pos hseen, if_pos hseen]
      exact ih top_k seen acc hacc
    · rw [dedupLoop, dedupFirstAux, if_neg hseen, if_neg hseen]
      dsimp only
      have hsub : top_k - acc.length = (top_k - (acc.length + 1)) + 1 := by
        omega
      rw [List.map_cons, hsub, List.take_succ_cons]
      by_cases hfull : top_k ≤ (acc ++ [mkDedupJob d sc]).length
      · rw [if_pos hfull]
        have hlen : (acc ++ [mkDedupJob d sc]).length = acc.length + 1 := by
          simp
        have htk : top_k = acc.length + 1 := by omega
        have hz : top_k - (acc.length + 1) = 0 := by omega
        rw [hz, List.take_zero]
      · rw [if_neg hfull]
        have hlt : (acc ++ [mkDedupJob d sc]).length < top_k := by
          simp at hfull ⊢
          omega
        rw [ih top_k (docKey d :: seen) _ hlt]
        have hlen2 : (acc ++ [mkDedupJob d sc]).length = acc.length + 1 := by
          simp
        rw [hlen2, List.append_assoc, List.singleton_append]

lemma dedupFirstAux_keys_nodup {α : Type} (l : List (RetrievedDoc × α)) :
    ∀ seen,
      (((dedupFirstAux seen l).map (fun p => docKey p.1)).Nodup)
    ∧ (∀ kk ∈ (dedupFirstAux seen l).map (fun p => docKey p.1),
        kk ∉ seen) := by
  induction l with
  | nil => intro seen; simp [dedupFirstAux]
  | cons p rest ih =>
    intro seen
    obtain ⟨d, sc⟩ := p
    by_cases hseen : docKey d ∈ seen
    · rw [dedupFirstAux, if_pos hseen]
      exact ih seen
    · rw [dedupFirstAux, if_neg hseen]
      obtain ⟨ihn, ihm⟩ := ih (docKey d :: seen)
      constructor
      · rw [List.map_cons, List.nodup_cons]
        refine ⟨?_, ihn⟩
        intro hmem
        exact (ihm _ hmem) (List.mem_cons_self _ _)
      · intro kk hkk
        rw [List.map_cons, List.mem_cons] at hkk
        rcases hkk with hkk | hkk
        · rw [hkk]; exact hseen
        · intro hks
          exact (ihm _ hkk) (List.mem_cons_of_mem _ hks)

lemma dedupFirstAux_sublist {α : Type} (l : List (RetrievedDoc × α)) :
    ∀ seen, List.Sublist (dedupFirstAux seen l) l := by
  induction l with
  | nil => intro seen; simp [dedupFirstAux]
  | cons p rest ih =>
    intro seen
    obtain ⟨d, sc⟩ := p
    by_cases hseen : docKey d ∈ seen
    · rw [dedupFirstAux, if_pos hseen]
      exact List.Sublist.cons _ (ih seen)
    · rw [dedupFirstAux, if_neg hseen]
      exact List.Sublist.cons₂ _ (ih (docKey d :: seen))

lemma jobKey_mkDedupJob {α : Type} (d : RetrievedDoc) (sc : α) :
    jobKey (mkDedupJob d sc) = docKey d := rfl

/-- C6: the retriever requests `2 × limit` raw hits, and the candidate
list it builds equals the first-seen dedup of those hits (by the identity
key `(title, company, location)`) truncated to `limit`; consequently it
has at most `limit` entries, no two entries share an identity key, and it
is a subsequence of the raw hits (no padding, order preserved).  The
hypothesis is the index contract of spec section 6: a similarity search
returns at most as many hits as requested. -/
theorem retriever_dedup_bounded {α : Type}
    (simsearch : String → Nat → List (RetrievedDoc × α))
    (intent : List (String × Option String)) (top_k : Nat)
    (hres : (simsearch (create_search_query intent) (top_k * 2)).length
      ≤ top_k * 2) :
    (retrieve_jobs_deduped simsearch intent top_k
      = ((dedupFirstAux []
          (simsearch (create_search_query intent) (top_k * 2))).map
            (fun p => mkDedupJob p.1 p.2)).take top_k)
  ∧ (retrieve_jobs_deduped simsearch intent top_k).length ≤ top_k
  ∧ ((retrieve_jobs_deduped simsearch intent top_k).map jobKey).Nodup
  ∧ List.Sublist (retrieve_jobs_deduped simsearch intent top_k)
      ((simsearch (create_search_query intent) (top_k * 2)).map
        (fun p => mkDedupJob p.1 p.2)) := by
  set raw := simsearch (create_search_query intent) (top_k * 2) with hraw
  have hmain : retrieve_jobs_deduped simsearch intent top_k
      = ((dedupFirstAux [] raw).map (fun p => mkDedupJob p.1 p.2)).take top_k := by
    rcases Nat.eq_zero_or_pos top_k with h0 | hpos
    · have : raw = [] := by
        rw [h0] at hres
        simpa using List.eq_nil_of_length_eq_zero (Nat.le_zero.1 hres)
      rw [retrieve_jobs_deduped, ← hraw, this, h0]
      rfl
    · rw [retrieve_jobs_deduped, ← hraw,
        dedupLoop_eq raw top_k [] [] (by simpa using hpos)]
      simp
  refine ⟨hmain, ?_, ?_, ?_⟩
  · rw [hmain, List.length_take]
    exact Nat.min_le_left _ _
  · rw [hmain]
    have hnd := (dedupFirstAux_keys_nodup raw []).1
    have h1 : List.map jobKey (List.map (fun p => mkDedupJob p.1 p.2)
        (List.take top_k (dedupFirstAux [] raw)))
        = List.map (fun p => docKey p.1)
            (List.take top_k (dedupFirstAux [] raw)) := by
      rw [List.map_map]
      rfl
    rw [← List.map_take, h1]
    exact List.Nodup.sublist
      (List.Sublist.map _ (List.take_sublist _ _)) hnd
  · rw [hmain]
    apply List.Sublist.trans (List.take_sublist _ _)
    exact List.Sublist.map _ (dedupFirstAux_sublist raw [])

/-- Witness for C6: a concrete index with one duplicated identity key,
limit 2. -/
theorem retriever_dedup_bounded_witness :
    ((witSim (create_search_query witOldIntent) (2 * 2)).length ≤ 2 * 2)
  ∧ ((retrieve_jobs_deduped witSim witOldIntent 2
      = ((dedupFirstAux []
          (witSim (create_search_query witOldIntent) (2 * 2))).map
            (fun p => mkDedupJob p.1 p.2)).take 2)
     ∧ (retrieve_jobs_deduped witSim witOldIntent 2).length ≤ 2
     ∧ ((retrieve_jobs_deduped witSim witOldIntent 2).map jobKey).Nodup
     ∧ List.Sublist (retrieve_jobs_deduped witSim witOldIntent 2)
        ((witSim (create_search_query witOldIntent) (2 * 2)).map
          (fun p => mkDedupJob p.1 p.2))) :=
  ⟨by decide, retriever_dedup_bounded witSim witOldIntent 2 (by decide)⟩

end JobAssistant

namespace JobAssistant

/-! Lemmas and claim theorems for the location filter. -/

lemma filterLocGo_eq {α : Type} (t : String) :
    ∀ jobs : List (RJob α),
      jobs.all (fun j => j.location.isSome) = true →
      filterLocGo t jobs = Except.ok (jobs.filter (fun j =>
        pyIn t (pyLower (j.location.getD ""))
          || pyIn "remote" (pyLower (j.location.getD "")))) := by
  intro jobs
  induction jobs with
  | nil => intro _; rfl
  | cons j rest ih =>
    intro hall
    rw [List.all_cons, Bool.and_eq_true] at hall
    obtain ⟨loc, hloc⟩ := Option.isSome_iff_exists.1 hall.1
    rw [filterLocGo, hloc, ih hall.2, List.filter_cons, hloc]
    exact rfl

/-- C9 counterexample: `filter_by_location` does not return the filtered
candidates for every list — on a candidate whose location value is `None`
and a non-empty target it raises (`None.lower()` is an
`AttributeError`). -/
theorem filter_by_location_counterexample :
    (filter_by_location [witJobNoneLoc] (some "ny") = Except.error ())
  ∧ (filter_by_location [witJobNoneLoc] (some "ny")
      ≠ Except.ok (([witJobNoneLoc]).filter (fun j =>
          pyIn (pyLower "ny") (pyLower (j.location.getD ""))
            || pyIn "remote" (pyLower (j.location.getD "")))))
  ∧ (filter_by_location [witJobNoneLoc] (some "ny") ≠ Except.ok []) := by
  have hbase : filter_by_location [witJobNoneLoc] (some "ny")
      = Except.error () := rfl
  refine ⟨hbase, ?_, ?_⟩
  · intro h; rw [hbase] at h; exact Except.noConfusion h
  · intro h; rw [hbase] at h; exact Except.noConfusion h

/-- C9 amended: for candidates whose locations are all present strings,
`filter_by_location` with a non-empty target returns exactly the
candidates whose location contains the lowercased target or the marker
`"remote"` as a lowercased substring, preserving order; an absent target
(`None` or the empty string) returns the input unchanged for any
candidate list. -/
theorem filter_by_location_amended {α : Type} (jobs jobs2 : List (RJob α))
    (t : String) (h1 : ¬ t = "")
    (h2 : jobs.all (fun j => j.location.isSome) = true) :
    (filter_by_location jobs (some t)
      = Except.ok (jobs.filter (fun j =>
          pyIn (pyLower t) (pyLower (j.location.getD ""))
            || pyIn "remote" (pyLower (j.location.getD "")))))
  ∧ filter_by_location jobs2 none = Except.ok jobs2
  ∧ filter_by_location jobs2 (some "") = Except.ok jobs2 := by
  refine ⟨?_, rfl, rfl⟩
  have ht : pyTruthy (some t) = true := by simp [pyTruthy, h1]
  rw [filter_by_location, if_pos ht]
  exact filterLocGo_eq (pyLower t) jobs h2

/-- Witness for the amended C9 on three concrete candidates. -/
theorem filter_by_location_amended_witness :
    (¬ "new york" = "")
  ∧ (witJobs3.all (fun j => j.location.isSome) = true)
  ∧ ((filter_by_location witJobs3 (some "new york")
      = Except.ok (witJobs3.filter (fun j =>
          pyIn (pyLower "new york") (pyLower (j.location.getD ""))
            || pyIn "remote" (pyLower (j.location.getD "")))))
     ∧ filter_by_location ([] : List (RJob Int)) none = Except.ok []
     ∧ filter_by_location ([] : List (RJob Int)) (some "") = Except.ok []) :=
  ⟨by decide, by decide,
   filter_by_location_amended witJobs3 [] "new york" (by decide) (by decide)⟩

end JobAssistant

namespace JobAssistant

/-! Lemmas and claim theorems for the two rerankers. -/

lemma fallbackGo_length {α : Type} (showScore : α → String) :
    ∀ (l : List (Job α)) (i : Nat),
      (ResponseChain.fallbackGo showScore l i).length = l.length := by
  intro l
  induction l with
  | nil => intro i; rfl
  | cons a rest ih =>
    intro i
    rw [ResponseChain.fallbackGo, List.length_cons, List.length_cons, ih]

lemma fallback_length_le {α : Type} (showScore : α → String)
    (jobs : List (Job α)) :
    (ResponseChain.create_fallback_ranking showScore jobs).length ≤ 10 := by
  unfold ResponseChain.create_fallback_ranking
  rw [fallbackGo_length, List.length_take]
  exact Nat.min_le_left _ _

lemma rerankTry_ok_length {α : Type} (jparse : String → Option PyJson)
    (showScore : α → String) (jobs : List (Job α))
    (svc : Except Unit String) (items : List (ResponseChain.RItem α))
    (h : ResponseChain.rerankTry jparse showScore jobs svc
      = Except.ok items) : items.length ≤ 10 := by
  unfold ResponseChain.rerankTry at h
  split at h
  · exact Except.noConfusion h
  · dsimp only at h
    repeat' split at h
    all_goals
      first
        | exact Except.noConfusion h
        | (rw [Except.ok.injEq] at h
           rw [← h]
           exact fallback_length_le _ _)
        | (rw [Except.ok.injEq] at h
           rw [← h, List.length_take]
           exact Nat.min_le_left _ _)

lemma rerankTry1_ok_length {α : Type} (jparse : String → Option PyJson)
    (jobs : List (Job α)) (svc : Except Unit String)
    (items : List (JobRanker.RItem2 α))
    (h : JobRanker.rerankTry1 jparse jobs svc = Except.ok items) :
    items.length ≤ 10 := by
  unfold JobRanker.rerankTry1 at h
  repeat' split at h
  all_goals
    first
      | exact Except.noConfusion h
      | (rw [Except.ok.injEq] at h
         rw [← h, List.length_take]
         exact Nat.min_le_left _ _)

/-- C7: both rerankers are total functions of the candidate list, the
intent, the (arbitrary) completion outcome and the (arbitrary) behaviour
of the JSON parser — every exception path lands in a fallback — and the
returned list always has at most `top_n = 10` elements. -/
theorem rerank_never_throws_bounded {α : Type}
    (jparse : String → Option PyJson) (showScore : α → String)
    (jobs : List (Job α)) (intent : List (String × Option String))
    (svc : Except Unit String) :
    (ResponseChain.rerank_jobs jparse showScore jobs intent svc).length ≤ 10
  ∧ (JobRanker.rerank_jobs jparse jobs intent svc).length ≤ 10 := by
  constructor
  · unfold ResponseChain.rerank_jobs
    dsimp only
    split
    · exact rerankTry_ok_length jparse showScore _ svc _ (by assumption)
    · exact fallback_length_le _ _
  · unfold JobRanker.rerank_jobs
    dsimp only
    split
    · exact rerankTry1_ok_length jparse _ svc _ (by assumption)
    · rw [List.length_map, List.length_take]
      exact Nat.min_le_left _ _

lemma fallbackGo_eq_mapIdx {α : Type} (showScore : α → String) :
    ∀ (l : List (Job α)) (i : Nat),
      ResponseChain.fallbackGo showScore l i
        = l.mapIdx (fun idx j => ResponseChain.RItem.matched j (idx + i)
            (PyJson.jstr ("High similarity match (score: "
              ++ showScore j.similarity_score ++ ")"))) := by
  intro l
  induction l with
  | nil => intro i; rfl
  | cons a rest ih =>
    intro i
    rw [ResponseChain.fallbackGo, List.mapIdx_cons, ih (i + 1)]
    congr 1
    · rw [Nat.zero_add]
    · congr 1
      funext idx j
      congr 1
      omega

/-- C8: on the literal empty completion response, `rerank_jobs` returns
exactly the first `min(n, 10)` input candidates in their original order,
the `i`-th annotated with final rank `i + 1` and a reason string quoting
its similarity score. -/
theorem rerank_empty_response_fallback {α : Type}
    (jparse : String → Option PyJson) (showScore : α → String)
    (jobs : List (Job α)) (intent : List (String × Option String)) :
    (ResponseChain.rerank_jobs jparse showScore jobs intent (Except.ok "")
      = (jobs.take 10).mapIdx (fun idx j =>
          ResponseChain.RItem.matched j (idx + 1)
            (PyJson.jstr ("High similarity match (score: "
              ++ showScore j.similarity_score ++ ")"))))
  ∧ (ResponseChain.rerank_jobs jparse showScore jobs intent
      (Except.ok "")).length = min jobs.length 10 := by
  have htrunc : (if 30 < jobs.length then jobs.take 30 else jobs).take 10
      = jobs.take 10 := by
    split
    · rw [List.take_take]
      rfl
    · rfl
  have hmain : ResponseChain.rerank_jobs jparse showScore jobs intent
      (Except.ok "")
      = ResponseChain.create_fallback_ranking showScore
          (if 30 < jobs.length then jobs.take 30 else jobs) := by
    unfold ResponseChain.rerank_jobs ResponseChain.rerankTry
    dsimp only
    rfl
  constructor
  · rw [hmain]
    unfold ResponseChain.create_fallback_ranking
    rw [htrunc]
    exact fallbackGo_eq_mapIdx showScore (jobs.take 10) 1
  · rw [hmain]
    unfold ResponseChain.create_fallback_ranking
    rw [htrunc, fallbackGo_length, List.length_take, Nat.min_comm]

end JobAssistant
